import Mathlib

/-!
Shallow embedding of the palette core of `src/script.js` (a color palette
picker), together with theorems checking the repository's specification
against it.

Modelling conventions:
* JavaScript numbers are modelled exactly: integer pixel channels as `Nat`,
  fractional canvas/image coordinates and HSL components as `ℚ`.
  `Math.floor` is `Int.floor`, `Math.round x` is `⌊x + 1/2⌋` (which agrees
  with JS rounding on all inputs, including negative halves).
* JS strings are Lean `String`s; hex formatting (`Number.prototype.toString(16)`
  for non-negative integers) and the regex parse in `hexToRgb` are embedded
  as executable functions on `List Char`.
* The mutable module state (`colors`, `undoStack`) becomes an explicit
  `Store` value threaded through the operations; `Array.prototype.sort`
  (stable, comparator-consistent) is modelled by `List.mergeSort`, which is
  a stable sort.
* The ColorThief extractor is an external collaborator; operations that use
  it take its result (a list of RGB triples) as a parameter.
-/

namespace PalettePicker

/-- `MAX_COLORS` from script.js line 2. -/
def MAX_COLORS : Nat := 21

/-- `MIN_CROP_SIZE` from script.js line 4. -/
def MIN_CROP_SIZE : Int := 10

/-- `MAX_UNDO_STACK` from script.js line 8. -/
def MAX_UNDO_STACK : Nat := 10

/-- An RGB pixel / color triple (each channel a non-negative integer). -/
structure Rgb where
  r : Nat
  g : Nat
  b : Nat
deriving DecidableEq, Repr

/-! ### rgbToHex (script.js lines 403-408)

`'#' + [r,g,b].map(x => { const hex = x.toString(16); return hex.length === 1
? '0' + hex : hex; }).join('')`.  `Number.prototype.toString(16)` on a
non-negative integer produces lowercase hex digits with no padding. -/

/-- One lowercase hex digit character for a value `< 16`. -/
def hexChar (n : Nat) : Char :=
  if n < 10 then Char.ofNat (Char.toNat '0' + n)
  else Char.ofNat (Char.toNat 'a' + (n - 10))

/-- Digit recursion for `natToHexChars`, structural on an explicit fuel
argument so that it reduces inside the kernel; one unit of fuel is spent per
digit, so `n + 1` units always suffice (see `natToHexChars_unfold`). -/
def natToHexFuel : Nat → Nat → List Char
  | 0, _ => []
  | fuel + 1, n =>
    if n < 16 then [hexChar n]
    else natToHexFuel fuel (n / 16) ++ [hexChar (n % 16)]

/-- `n.toString(16)` for a non-negative integer `n`: lowercase hex digits,
most significant first, no padding (a single digit for `n < 16`). -/
def natToHexChars (n : Nat) : List Char :=
  natToHexFuel (n + 1) n

/-- The `hex.length === 1 ? '0' + hex : hex` padding step. -/
def pad2 (l : List Char) : List Char :=
  if l.length = 1 then '0' :: l else l

/-- `rgbToHex` from script.js lines 403-408. -/
def rgbToHex (r g b : Nat) : String :=
  ⟨'#' :: (pad2 (natToHexChars r) ++ pad2 (natToHexChars g) ++ pad2 (natToHexChars b))⟩

/-! ### hexToRgb (script.js lines 411-418)

Regex `/^#?([a-f\d]{2})([a-f\d]{2})([a-f\d]{2})$/i`: an optional leading
`#`, then exactly six hex digits (either case), parsed pairwise with
`parseInt(_, 16)`; returns `null` on mismatch. -/

/-- Value of a hex digit character (either case), `none` for non-hex. -/
def hexDigitVal (c : Char) : Option Nat :=
  if '0' ≤ c ∧ c ≤ '9' then some (Char.toNat c - Char.toNat '0')
  else if 'a' ≤ c ∧ c ≤ 'f' then some (Char.toNat c - Char.toNat 'a' + 10)
  else if 'A' ≤ c ∧ c ≤ 'F' then some (Char.toNat c - Char.toNat 'A' + 10)
  else none

/-- Match exactly six hex digits, grouped into three two-digit channels. -/
def parseHex6 : List Char → Option Rgb
  | [c1, c2, c3, c4, c5, c6] => do
    let v1 ← hexDigitVal c1
    let v2 ← hexDigitVal c2
    let v3 ← hexDigitVal c3
    let v4 ← hexDigitVal c4
    let v5 ← hexDigitVal c5
    let v6 ← hexDigitVal c6
    pure ⟨16 * v1 + v2, 16 * v3 + v4, 16 * v5 + v6⟩
  | _ => none

/-- The regex's optional leading `#`. -/
def stripHash (cs : List Char) : List Char :=
  match cs with
  | c :: rest => if c = '#' then rest else cs
  | [] => cs

/-- `hexToRgb` from script.js lines 411-418 (`none` models `null`). -/
def hexToRgb (s : String) : Option Rgb :=
  parseHex6 (stripHash s.data)

/-! ### RGB ↔ HSL (script.js lines 421-444 and 714-746) -/

/-- An HSL triple as produced by `rgbToHsl` (`h ∈ [0,360)`, `s, l ∈ [0,100]`). -/
structure Hsl where
  h : ℚ
  s : ℚ
  l : ℚ
deriving DecidableEq, Repr

/-- `rgbToHsl` from script.js lines 421-444.  The `switch (max)` statement
matches `case r` first, then `case g`, then `case b`. -/
def rgbToHsl (r g b : Nat) : Hsl :=
  let r' : ℚ := (r : ℚ) / 255
  let g' : ℚ := (g : ℚ) / 255
  let b' : ℚ := (b : ℚ) / 255
  let mx := max r' (max g' b')
  let mn := min r' (min g' b')
  let l := (mx + mn) / 2
  if mx = mn then
    ⟨0, 0, l * 100⟩
  else
    let d := mx - mn
    let s := if l > 1 / 2 then d / (2 - mx - mn) else d / (mx + mn)
    let h :=
      if mx = r' then ((g' - b') / d + (if g' < b' then 6 else 0)) / 6
      else if mx = g' then ((b' - r') / d + 2) / 6
      else ((r' - g') / d + 4) / 6
    ⟨h * 360, s * 100, l * 100⟩

/-- `Math.round`: round half toward positive infinity. -/
def jsRound (q : ℚ) : Int := ⌊q + 1 / 2⌋

/-- The inner `hue2rgb` helper of `hslToRgb` (script.js lines 724-731). -/
def hue2rgb (p q t : ℚ) : ℚ :=
  let t1 := if t < 0 then t + 1 else t
  let t2 := if t1 > 1 then t1 - 1 else t1
  if t2 < 1 / 6 then p + (q - p) * 6 * t2
  else if t2 < 1 / 2 then q
  else if t2 < 2 / 3 then p + (q - p) * (2 / 3 - t2) * 6
  else p

/-- `hslToRgb` from script.js lines 714-746.  For the inputs arising in this
program (`s, l ∈ [0,100]`) the real-valued channels lie in `[0,1]`, so the
final `Math.round(x * 255)` is non-negative and `Int.toNat` is exact. -/
def hslToRgb (h s l : ℚ) : Rgb :=
  let h' := h / 360
  let s' := s / 100
  let l' := l / 100
  if s' = 0 then
    let v := (jsRound (l' * 255)).toNat
    ⟨v, v, v⟩
  else
    let q := if l' < 1 / 2 then l' * (1 + s') else l' + s' - l' * s'
    let p := 2 * l' - q
    ⟨(jsRound (hue2rgb p q (h' + 1 / 3) * 255)).toNat,
     (jsRound (hue2rgb p q h' * 255)).toNat,
     (jsRound (hue2rgb p q (h' - 1 / 3) * 255)).toNat⟩

/-! ### Hue sort (script.js lines 447-455)

`sortByHue` copies the array (`slice()`) and sorts it with the comparator
`(a, b) => rgbToHsl(hexToRgb(a)).h - rgbToHsl(hexToRgb(b)).h`.
`Array.prototype.sort` with a consistent comparator is a stable sort, so it
is modelled by `List.mergeSort` keyed on the hue.  The copy made by
`slice()` means the manual-order array is never mutated; in this pure
embedding that is automatic (`sortByHue l` is a fresh list and `l` is
unchanged).  On a string that `hexToRgb` rejects the JS comparator would
throw; palettes only ever hold `rgbToHex` outputs, and `hueOf` gives such
junk strings the (never used) key `0`. -/

/-- The comparator key: hue of a hex color string. -/
def hueOf (c : String) : ℚ :=
  match hexToRgb c with
  | some rgb => (rgbToHsl rgb.r rgb.g rgb.b).h
  | none => 0

/-- `sortByHue` from script.js lines 447-455. -/
def sortByHue (l : List String) : List String :=
  l.mergeSort (fun a b => decide (hueOf a ≤ hueOf b))

/-! ### Color variations (script.js lines 688-711) -/

/-- `createColorVariations` from script.js lines 688-711 (the JS default
`count = 3` is always overridden at the call sites). -/
def createColorVariations (r g b : Nat) (count : Nat) : List String :=
  let hsl := rgbToHsl r g b
  let lighter := hslToRgb hsl.h hsl.s (min 100 (hsl.l + 15))
  let darker := hslToRgb hsl.h hsl.s (max 0 (hsl.l - 15))
  let desaturated := hslToRgb hsl.h (max 0 (hsl.s - 30)) hsl.l
  let base := [rgbToHex lighter.r lighter.g lighter.b,
               rgbToHex darker.r darker.g darker.b,
               rgbToHex desaturated.r desaturated.g desaturated.b]
  let withSaturated :=
    if 4 ≤ count then
      let saturated := hslToRgb hsl.h (min 100 (hsl.s + 20)) hsl.l
      base ++ [rgbToHex saturated.r saturated.g saturated.b]
    else base
  withSaturated.take count

/-! ### Image, viewport and sampling (script.js lines 212-218, 253-306) -/

/-- An immutable raster image: dimensions plus a pixel accessor
(`ctx.getImageData(px, py, 1, 1)` in the source). -/
structure Image where
  width : Nat
  height : Nat
  px : Nat → Nat → Rgb

/-- The zoom/pan globals `zoom`, `panX`, `panY`. -/
structure Viewport where
  zoom : ℚ
  panX : ℚ
  panY : ℚ

/-- `canvasToImageCoords` from script.js lines 213-218. -/
def canvasToImageCoords (v : Viewport) (canvasX canvasY : ℚ) : ℚ × ℚ :=
  ((canvasX - v.panX * v.zoom) / v.zoom, (canvasY - v.panY * v.zoom) / v.zoom)

/-- The `(dx, dy)` pairs visited by the nested loops of `sampleArea`
(`dy` outer, `dx` inner, each from `-1` to `1`). -/
def sampleOffsets : List (Int × Int) :=
  [(-1, -1), (0, -1), (1, -1), (-1, 0), (0, 0), (1, 0), (-1, 1), (0, 1), (1, 1)]

/-- The in-bounds test `px >= 0 && py >= 0 && px < width && py < height`. -/
def inBoundsZ (img : Image) (px py : Int) : Bool :=
  decide (0 ≤ px) && decide (0 ≤ py) &&
    decide (px < (img.width : Int)) && decide (py < (img.height : Int))

/-- The offsets whose pixel is inside the image (the iterations of
`sampleArea`'s loop that contribute to `r`, `g`, `b` and `count`). -/
def inBoundsOffsets (img : Image) (x y : Int) : List (Int × Int) :=
  sampleOffsets.filter (fun d => inBoundsZ img (x + d.1) (y + d.2))

/-- The `count` accumulated by `sampleArea`. -/
def sampleCount (img : Image) (x y : Int) : Nat :=
  (inBoundsOffsets img x y).length

/-- `sampleArea` from script.js lines 276-306: sum the in-bounds pixels of
the 3×3 neighborhood of `(x, y)` and divide each channel by `count`.
In JS a zero `count` would make `r / count` `NaN`; the rational division
here returns `0` in that case, and the claim about `sampleArea` is exactly
that its caller never lets `count` be zero. -/
def sampleArea (img : Image) (x y : Int) : Rgb :=
  let pts := (inBoundsOffsets img x y).map (fun d => img.px (x + d.1).toNat (y + d.2).toNat)
  let n : ℚ := (sampleCount img x y : ℚ)
  ⟨(jsRound ((pts.map (fun c => (c.r : ℚ))).sum / n)).toNat,
   (jsRound ((pts.map (fun c => (c.g : ℚ))).sum / n)).toNat,
   (jsRound ((pts.map (fun c => (c.b : ℚ))).sum / n)).toNat⟩

/-! ### Palette store and history (script.js lines 11, 26, 233-250, 253-273,
533-569, 627-685, 749-759, 827-845)

The module-level mutable state `colors` / `undoStack` becomes a `Store`
value.  `undoStack.push([...colors])` appends a copy of the palette at the
*end* of the list (the top of the stack); `undoStack.shift()` removes the
*head* (the oldest snapshot, the bottom of the stack). -/

/-- The palette plus its undo history. -/
structure Store where
  colors : List String
  undoStack : List (List String)
deriving DecidableEq, Repr

/-- The stack update performed by `saveState` (script.js lines 233-243):
push a copy of the palette, then `shift()` away the oldest snapshot if the
stack has grown beyond `MAX_UNDO_STACK`. -/
def pushSnap (stack : List (List String)) (snapshot : List String) : List (List String) :=
  let pushed := stack ++ [snapshot]
  if MAX_UNDO_STACK < pushed.length then pushed.tail else pushed

/-- `saveState` from script.js lines 233-243 (the `updateUndoButton` call is
DOM-only). -/
def saveState (st : Store) : Store :=
  { st with undoStack := pushSnap st.undoStack st.colors }

/-- `undo` from script.js lines 561-569: no-op on an empty stack, otherwise
pop the most recent snapshot into `colors`. -/
def undo (st : Store) : Store :=
  match st.undoStack.getLast? with
  | none => st
  | some previous => { colors := previous, undoStack := st.undoStack.dropLast }

/-- `pickColorAtPoint` from script.js lines 253-273: bail out if there is no
image or the palette is full; map the canvas point to image space; bail out
if it lies outside the image; otherwise `saveState`, sample the 3×3
neighborhood of the floored point, and append the hex color. -/
def pickColorAtPoint (img : Option Image) (v : Viewport) (canvasX canvasY : ℚ)
    (st : Store) : Store :=
  match img with
  | none => st
  | some image =>
    if MAX_COLORS ≤ st.colors.length then st
    else
      let p := canvasToImageCoords v canvasX canvasY
      if p.1 < 0 ∨ p.2 < 0 ∨ (image.width : ℚ) ≤ p.1 ∨ (image.height : ℚ) ≤ p.2 then st
      else
        let st1 := saveState st
        let c := sampleArea image ⌊p.1⌋ ⌊p.2⌋
        { st1 with colors := st1.colors ++ [rgbToHex c.r c.g c.b] }

/-- `prefillPaletteFromImage` from script.js lines 631-646, applied to the
palette returned by the ColorThief collaborator (`getPalette(image, 20)`):
`saveState`, then replace `colors` with the hex strings of the extraction. -/
def prefillPaletteFromImage (palette : List Rgb) (st : Store) : Store :=
  { colors := palette.map (fun c => rgbToHex c.r c.g c.b),
    undoStack := pushSnap st.undoStack st.colors }

/-- The palette built by the `mainPalette.forEach((rgb, index) => ...)` loop
of `prefillAdvancedPaletteFromImage` (script.js lines 664-678): each main
color followed by its variations, 4 of them for index 0 and 3 otherwise. -/
def advancedColors (mainPalette : List Rgb) : List String :=
  (mainPalette.enum.map (fun ic =>
    rgbToHex ic.2.r ic.2.g ic.2.b ::
      createColorVariations ic.2.r ic.2.g ic.2.b (if ic.1 = 0 then 4 else 3))).flatten

/-- `prefillAdvancedPaletteFromImage` from script.js lines 653-685, applied
to the main palette returned by ColorThief (`getPalette(image, 5)`). -/
def prefillAdvancedPaletteFromImage (mainPalette : List Rgb) (st : Store) : Store :=
  { colors := advancedColors mainPalette,
    undoStack := pushSnap st.undoStack st.colors }

/-- `removeColor` from script.js lines 533-558: look up the first occurrence
of the hex value in manual order (`colors.indexOf(hex)`); if present,
`saveState` and `splice` it out (the animation and the display `index`
argument are DOM-only). -/
def removeColor (hex : String) (st : Store) : Store :=
  if st.colors.contains hex then
    let st1 := saveState st
    { st1 with colors := st1.colors.erase hex }
  else st

/-- `clearAll` from script.js lines 827-845: no-op when already empty,
otherwise `saveState` then empty the palette. -/
def clearAll (st : Store) : Store :=
  if st.colors.length = 0 then st
  else { colors := [], undoStack := pushSnap st.undoStack st.colors }

/-- `exportColors` from script.js lines 749-759: no-op (`none`) on an empty
palette, otherwise `colors.join(', ')`. -/
def exportColors (colors : List String) : Option String :=
  if colors.length = 0 then none
  else some (String.intercalate ", " colors)

/-- The palette operations of the store, for stating history invariants
uniformly.  `pick`, `prefillBasic`, `prefillAdvanced`, `remove` and `clear`
are the five mutating operations; `undoOp` is `undo`. -/
inductive Op where
  | pick (img : Option Image) (v : Viewport) (canvasX canvasY : ℚ)
  | prefillBasic (palette : List Rgb)
  | prefillAdvanced (mainPalette : List Rgb)
  | remove (hex : String)
  | clear
  | undoOp

/-- Apply an operation to the store. -/
def applyOp : Op → Store → Store
  | .pick img v cx cy, st => pickColorAtPoint img v cx cy st
  | .prefillBasic palette, st => prefillPaletteFromImage palette st
  | .prefillAdvanced mainPalette, st => prefillAdvancedPaletteFromImage mainPalette st
  | .remove hex, st => removeColor hex st
  | .clear, st => clearAll st
  | .undoOp, st => undo st

/-- The five palette-mutating operations (everything except `undo`). -/
def Op.isMutating : Op → Bool
  | .undoOp => false
  | _ => true

/-! ### Crop session (script.js lines 571-624) -/

/-- The crop gesture's prefill mode (`cropPrefillMode`). -/
inductive CropMode where
  | basic
  | advanced

/-- The live crop rectangle in canvas coordinates (`cropStartX`,
`cropStartY`, `cropEndX`, `cropEndY`). -/
structure CropState where
  startX : ℚ
  startY : ℚ
  endX : ℚ
  endY : ℚ

/-- A rectangle in image space. -/
structure ImageRect where
  x1 : Int
  y1 : Int
  x2 : Int
  y2 : Int
deriving DecidableEq, Repr

/-- The outcome of completing a crop gesture. -/
inductive CropOutcome where
  | noSelection
  | selectionTooSmall
  | extracted
deriving DecidableEq, Repr

/-- The image-space rectangle computed by `executeCropPrefill` (script.js
lines 584-596): normalize the corners with min/max, convert both to image
space, floor, and clamp to the image bounds. -/
def cropRectImage (img : Image) (v : Viewport) (c : CropState) : ImageRect :=
  let x1 := min c.startX c.endX
  let y1 := min c.startY c.endY
  let x2 := max c.startX c.endX
  let y2 := max c.startY c.endY
  let p1 := canvasToImageCoords v x1 y1
  let p2 := canvasToImageCoords v x2 y2
  ⟨max 0 ⌊p1.1⌋, max 0 ⌊p1.2⌋,
   min (img.width : Int) ⌊p2.1⌋, min (img.height : Int) ⌊p2.2⌋⟩

/-- The cropped sub-image drawn onto `cropCanvas` (script.js lines 607-612):
a pixel copy of the `w × h` region whose top-left corner is `(x1, y1)`. -/
def cropImage (img : Image) (x1 y1 : Int) (w h : Nat) : Image :=
  ⟨w, h, fun px py => img.px (x1.toNat + px) (y1.toNat + py)⟩

/-- `executeCropPrefill` from script.js lines 581-624, with the asynchronous
`croppedImg.onload` dispatch to `prefillPaletteFromImage` /
`prefillAdvancedPaletteFromImage` composed in synchronously (the design is
single-gesture, single-threaded).  The ColorThief extractor is passed in as
the collaborator functions `extractBasic` / `extractAdvanced`. -/
def executeCropPrefill (extractBasic extractAdvanced : Image → List Rgb)
    (mode : CropMode) (img : Option Image) (crop : Option CropState)
    (v : Viewport) (st : Store) : Store × CropOutcome :=
  match img, crop with
  | none, _ => (st, .noSelection)
  | some _, none => (st, .noSelection)
  | some image, some c =>
    let rect := cropRectImage image v c
    let cropWidth := rect.x2 - rect.x1
    let cropHeight := rect.y2 - rect.y1
    if cropWidth < MIN_CROP_SIZE ∨ cropHeight < MIN_CROP_SIZE then
      (st, .selectionTooSmall)
    else
      let cropped := cropImage image rect.x1 rect.y1 cropWidth.toNat cropHeight.toNat
      match mode with
      | .basic => (prefillPaletteFromImage (extractBasic cropped) st, .extracted)
      | .advanced => (prefillAdvancedPaletteFromImage (extractAdvanced cropped) st, .extracted)

/-- Spec-side definition (§4.1 `deriveVariations`), written from the spec's
words for comparison with `createColorVariations`: in fixed order, (1)
lighter by +15 lightness points (clamped ≤ 100), (2) darker by −15 (clamped
≥ 0), (3) desaturated by −30 saturation points (clamped ≥ 0), (4)
more-saturated by +20 (clamped ≤ 100); the sequence truncated to `count`
entries. -/
def deriveVariationsSpec (r g b : Nat) (count : Nat) : List String :=
  let hsl := rgbToHsl r g b
  let lighter := hslToRgb hsl.h hsl.s (min 100 (hsl.l + 15))
  let darker := hslToRgb hsl.h hsl.s (max 0 (hsl.l - 15))
  let desaturated := hslToRgb hsl.h (max 0 (hsl.s - 30)) hsl.l
  let saturated := hslToRgb hsl.h (min 100 (hsl.s + 20)) hsl.l
  [rgbToHex lighter.r lighter.g lighter.b,
   rgbToHex darker.r darker.g darker.b,
   rgbToHex desaturated.r desaturated.g desaturated.b,
   rgbToHex saturated.r saturated.g saturated.b].take count

/-! ## Hex formatting lemmas -/

/-- The fuel argument of `natToHexFuel` is irrelevant as long as it exceeds
the input, so `natToHexChars` really is the digit recursion of
`Number.prototype.toString(16)` (see `natToHexChars_unfold`). -/
theorem natToHexFuel_congr :
    ∀ m f₁ f₂ : Nat, m < f₁ → m < f₂ → natToHexFuel f₁ m = natToHexFuel f₂ m := by
  intro m
  induction m using Nat.strong_induction_on with
  | _ m ih =>
    intro f₁ f₂ h₁ h₂
    cases f₁ with
    | zero => omega
    | succ a =>
      cases f₂ with
      | zero => omega
      | succ b =>
        by_cases hm : m < 16
        · simp [natToHexFuel, hm]
        · have hdiv : m / 16 < m := Nat.div_lt_self (by omega) (by omega)
          simp only [natToHexFuel, if_neg hm]
          rw [ih (m / 16) hdiv a b (by omega) (by omega)]

/-- The recurrence satisfied by `natToHexChars`: one lowercase hex digit for
`n < 16`, otherwise the digits of `n / 16` followed by the digit of
`n % 16`. -/
theorem natToHexChars_unfold (n : Nat) :
    natToHexChars n =
      if n < 16 then [hexChar n] else natToHexChars (n / 16) ++ [hexChar (n % 16)] := by
  by_cases h : n < 16
  · simp [natToHexChars, natToHexFuel, h]
  · have hdiv : n / 16 < n := Nat.div_lt_self (by omega) (by omega)
    show natToHexFuel (n + 1) n = _
    simp only [natToHexFuel, if_neg h]
    rw [natToHexFuel_congr (n / 16) n (n / 16 + 1) (by omega) (by omega)]
    rfl

/-- For a channel value in `[0, 255]` the padded hex representation is
exactly the two digits `n / 16` and `n % 16`. -/
theorem pad2_natToHexChars {n : Nat} (h : n ≤ 255) :
    pad2 (natToHexChars n) = [hexChar (n / 16), hexChar (n % 16)] := by
  rw [natToHexChars_unfold]
  by_cases h16 : n < 16
  · have h0 : n / 16 = 0 := by omega
    have hm : n % 16 = n := by omega
    have hz : hexChar 0 = '0' := by decide
    simp [h16, pad2, h0, hm, hz]
  · have hd : n / 16 < 16 := by omega
    rw [if_neg h16, natToHexChars_unfold (n / 16), if_pos hd]
    simp [pad2]

/-- Parsing inverts formatting on a single hex digit. -/
theorem hexDigitVal_hexChar {d : Nat} (h : d < 16) :
    hexDigitVal (hexChar d) = some d := by
  interval_cases d <;> decide

/-- `stripHash` removes a leading `#`. -/
theorem stripHash_hash_cons (l : List Char) : stripHash ('#' :: l) = l := by
  simp [stripHash]

/-- C4: for every integer triple `r, g, b` with each channel in `[0, 255]`,
`hexToRgb (rgbToHex r g b)` succeeds and returns exactly `{r, g, b}`. -/
theorem hexToRgb_rgbToHex (r g b : Nat) (hr : r ≤ 255) (hg : g ≤ 255) (hb : b ≤ 255) :
    hexToRgb (rgbToHex r g b) = some ⟨r, g, b⟩ := by
  have hdata : (rgbToHex r g b).data =
      '#' :: (pad2 (natToHexChars r) ++ pad2 (natToHexChars g) ++ pad2 (natToHexChars b)) := rfl
  have e1 : hexDigitVal (hexChar (r / 16)) = some (r / 16) := hexDigitVal_hexChar (by omega)
  have e2 : hexDigitVal (hexChar (r % 16)) = some (r % 16) := hexDigitVal_hexChar (by omega)
  have e3 : hexDigitVal (hexChar (g / 16)) = some (g / 16) := hexDigitVal_hexChar (by omega)
  have e4 : hexDigitVal (hexChar (g % 16)) = some (g % 16) := hexDigitVal_hexChar (by omega)
  have e5 : hexDigitVal (hexChar (b / 16)) = some (b / 16) := hexDigitVal_hexChar (by omega)
  have e6 : hexDigitVal (hexChar (b % 16)) = some (b % 16) := hexDigitVal_hexChar (by omega)
  unfold hexToRgb
  rw [hdata, stripHash_hash_cons, pad2_natToHexChars hr, pad2_natToHexChars hg,
    pad2_natToHexChars hb]
  simp only [List.cons_append, List.nil_append]
  simp [parseHex6, e1, e2, e3, e4, e5, e6, Rgb.mk.injEq]
  omega

/-- Witness for C4 at the concrete triple `(170, 187, 204)` (`#aabbcc`). -/
theorem hexToRgb_rgbToHex_witness :
    hexToRgb (rgbToHex 170 187 204) = some ⟨170, 187, 204⟩ :=
  hexToRgb_rgbToHex 170 187 204 (by omega) (by omega) (by omega)

/-! ## Out-of-range channels (C9) -/

/-- `natToHexFuel` never returns an empty digit list when it has fuel. -/
theorem natToHexFuel_length_pos (f n : Nat) (h : 0 < f) :
    0 < (natToHexFuel f n).length := by
  cases f with
  | zero => omega
  | succ a =>
    by_cases hn : n < 16
    · simp [natToHexFuel, hn]
    · simp [natToHexFuel, hn]

/-- A value above 255 formats to at least three hex digits. -/
theorem natToHexChars_length_ge3 {n : Nat} (h : 255 < n) :
    3 ≤ (natToHexChars n).length := by
  rw [natToHexChars_unfold, if_neg (by omega), natToHexChars_unfold, if_neg (by omega)]
  have := natToHexFuel_length_pos (n / 16 / 16 + 1) (n / 16 / 16) (by omega)
  simp only [List.length_append, List.length_cons, List.length_nil]
  show 3 ≤ (natToHexFuel (n / 16 / 16 + 1) (n / 16 / 16)).length + 1 + 1
  omega

/-- Padding never shrinks a digit list, and yields at least two characters
on a non-empty one. -/
theorem pad2_length (l : List Char) :
    l.length ≤ (pad2 l).length ∧ (0 < l.length → 2 ≤ (pad2 l).length) := by
  by_cases h : l.length = 1 <;> simp [pad2, h] <;> omega

/-- A character list that is not exactly six long never parses. -/
theorem parseHex6_eq_none {cs : List Char} (h : cs.length ≠ 6) :
    parseHex6 cs = none := by
  rcases cs with _ | ⟨c1, _ | ⟨c2, _ | ⟨c3, _ | ⟨c4, _ | ⟨c5, _ | ⟨c6, _ | ⟨c7, rest⟩⟩⟩⟩⟩⟩⟩ <;>
    simp_all [parseHex6]

/-- Counterexample to C9: `rgbToHex(256, 0, 0)` neither fails nor clamps —
it returns the malformed seven-digit string `#1000000` (so it is not the
clamped `rgbToHex(255, 0, 0) = #ff0000` either), which `hexToRgb`
rejects. -/
theorem rgbToHex_no_validation_counterexample :
    rgbToHex 256 0 0 = "#1000000" ∧ rgbToHex 256 0 0 ≠ rgbToHex 255 0 0 ∧
      hexToRgb (rgbToHex 256 0 0) = none := by
  refine ⟨by decide, by decide, by decide⟩

/-- C9 (amended): `rgbToHex` performs no channel validation.  For any
integer channel above 255 it returns an unpadded, longer-than-six-digit
string, which is not a well-formed color and is rejected by `hexToRgb`. -/
theorem rgbToHex_out_of_range (r g b : Nat) (h : 255 < r ∨ 255 < g ∨ 255 < b) :
    hexToRgb (rgbToHex r g b) = none := by
  have hdata : (rgbToHex r g b).data =
      '#' :: (pad2 (natToHexChars r) ++ pad2 (natToHexChars g) ++ pad2 (natToHexChars b)) := rfl
  have pr := pad2_length (natToHexChars r)
  have pg := pad2_length (natToHexChars g)
  have pb := pad2_length (natToHexChars b)
  have lr := natToHexFuel_length_pos (r + 1) r (by omega)
  have lg := natToHexFuel_length_pos (g + 1) g (by omega)
  have lb := natToHexFuel_length_pos (b + 1) b (by omega)
  unfold hexToRgb
  rw [hdata, stripHash_hash_cons]
  apply parseHex6_eq_none
  simp only [List.length_append]
  rcases h with h | h | h
  · have := natToHexChars_length_ge3 h
    have : 3 ≤ (pad2 (natToHexChars r)).length := le_trans this pr.1
    have : 2 ≤ (pad2 (natToHexChars g)).length := pg.2 lg
    have : 2 ≤ (pad2 (natToHexChars b)).length := pb.2 lb
    omega
  · have := natToHexChars_length_ge3 h
    have : 3 ≤ (pad2 (natToHexChars g)).length := le_trans this pg.1
    have : 2 ≤ (pad2 (natToHexChars r)).length := pr.2 lr
    have : 2 ≤ (pad2 (natToHexChars b)).length := pb.2 lb
    omega
  · have := natToHexChars_length_ge3 h
    have : 3 ≤ (pad2 (natToHexChars b)).length := le_trans this pb.1
    have : 2 ≤ (pad2 (natToHexChars r)).length := pr.2 lr
    have : 2 ≤ (pad2 (natToHexChars g)).length := pg.2 lg
    omega

/-- Witness for the amended C9 at the concrete channel 256. -/
theorem rgbToHex_out_of_range_witness :
    hexToRgb (rgbToHex 256 0 0) = none :=
  rgbToHex_out_of_range 256 0 0 (Or.inl (by omega))

/-! ## Export as text (C8) -/

/-- Counterexample to C8: `exportColors` joins the palette's *stored* hex
strings, which `rgbToHex` produces in lowercase; it does not uppercase
them, so exporting `[#aabbcc, #112233]` does not yield
`"#AABBCC, #112233"`. -/
theorem exportColors_lowercase_counterexample :
    exportColors ["#aabbcc", "#112233"] ≠ some "#AABBCC, #112233" := by decide

/-- C8 (amended): for every non-empty palette, export-as-text produces the
comma-and-space join of the palette's hex strings exactly as stored
(lowercase, as produced by `rgbToHex`); exporting `[#aabbcc, #112233]`
yields `"#aabbcc, #112233"`. -/
theorem exportColors_spec (colors : List String) (h : colors ≠ []) :
    exportColors colors = some (String.intercalate ", " colors) ∧
      exportColors ["#aabbcc", "#112233"] = some "#aabbcc, #112233" := by
  refine ⟨?_, by decide⟩
  unfold exportColors
  rw [if_neg (fun hl => h (List.eq_nil_of_length_eq_zero hl))]

/-- Witness for the amended C8 at the palette `[#aabbcc, #112233]`. -/
theorem exportColors_spec_witness :
    exportColors ["#aabbcc", "#112233"] =
      some (String.intercalate ", " ["#aabbcc", "#112233"]) :=
  (exportColors_spec ["#aabbcc", "#112233"] (by decide)).1

/-! ## History discipline (C2) -/

/-- Length of the stack after a snapshot push, assuming the capacity
invariant held before: it grows by one until it reaches
`MAX_UNDO_STACK` and then stays there. -/
theorem pushSnap_length_of_le {stack : List (List String)} (snap : List String)
    (h : stack.length ≤ MAX_UNDO_STACK) :
    (pushSnap stack snap).length = min (stack.length + 1) MAX_UNDO_STACK := by
  have hM : MAX_UNDO_STACK = 10 := rfl
  show (if MAX_UNDO_STACK < (stack ++ [snap]).length then (stack ++ [snap]).tail
        else stack ++ [snap]).length = _
  by_cases hc : MAX_UNDO_STACK < (stack ++ [snap]).length
  · rw [if_pos hc, List.length_tail]
    simp only [List.length_append, List.length_cons, List.length_nil] at hc ⊢
    rw [hM] at hc h ⊢
    omega
  · rw [if_neg hc]
    simp only [List.length_append, List.length_cons, List.length_nil] at hc ⊢
    rw [hM] at hc h ⊢
    omega

/-- When the stack is at capacity, a push evicts the *oldest* snapshot (the
head of the list, the bottom of the stack) and appends the new one on top. -/
theorem pushSnap_evicts_oldest (stack : List (List String)) (snap : List String)
    (h : stack.length = MAX_UNDO_STACK) :
    pushSnap stack snap = stack.tail ++ [snap] := by
  have hM : MAX_UNDO_STACK = 10 := rfl
  show (if MAX_UNDO_STACK < (stack ++ [snap]).length then (stack ++ [snap]).tail
        else stack ++ [snap]) = _
  rw [if_pos (by simp only [List.length_append, List.length_cons, List.length_nil, h]; omega)]
  cases stack with
  | nil => rw [hM] at h; simp at h
  | cons a t => simp

/-- `undo` is the identity on an empty history. -/
theorem undo_of_empty {st : Store} (h : st.undoStack = []) : undo st = st := by
  simp [undo, h]

/-- `undo` on a non-empty history drops the most recent snapshot. -/
theorem undo_stack_dropLast {st : Store} (h : st.undoStack ≠ []) :
    (undo st).undoStack = st.undoStack.dropLast := by
  rcases hlast : st.undoStack.getLast? with _ | prev
  · exact absurd (List.getLast?_eq_none_iff.mp hlast) h
  · simp [undo, hlast]

/-- Iterating `undo` `n` times removes `n` snapshots (as long as they last). -/
theorem undo_iterate_length (n : Nat) :
    ∀ st : Store, n ≤ st.undoStack.length →
      (undo^[n] st).undoStack.length = st.undoStack.length - n := by
  induction n with
  | zero => intro st _; simp
  | succ k ih =>
    intro st h
    rw [Function.iterate_succ_apply]
    have hne : st.undoStack ≠ [] := by
      intro he
      rw [he] at h
      simp at h
    have hl : (undo st).undoStack.length = st.undoStack.length - 1 := by
      rw [undo_stack_dropLast hne, List.length_dropLast]
    rw [ih (undo st) (by omega)]
    omega

/-- The guard/else structure of `pickColorAtPoint` on a present image,
written out as nested conditionals. -/
theorem pickColorAtPoint_eq (image : Image) (v : Viewport) (cx cy : ℚ) (st : Store) :
    pickColorAtPoint (some image) v cx cy st =
      if MAX_COLORS ≤ st.colors.length then st
      else if (canvasToImageCoords v cx cy).1 < 0 ∨ (canvasToImageCoords v cx cy).2 < 0 ∨
          (image.width : ℚ) ≤ (canvasToImageCoords v cx cy).1 ∨
          (image.height : ℚ) ≤ (canvasToImageCoords v cx cy).2 then st
      else
        { colors := st.colors ++
            [rgbToHex (sampleArea image ⌊(canvasToImageCoords v cx cy).1⌋
                ⌊(canvasToImageCoords v cx cy).2⌋).r
              (sampleArea image ⌊(canvasToImageCoords v cx cy).1⌋
                ⌊(canvasToImageCoords v cx cy).2⌋).g
              (sampleArea image ⌊(canvasToImageCoords v cx cy).1⌋
                ⌊(canvasToImageCoords v cx cy).2⌋).b],
          undoStack := pushSnap st.undoStack st.colors } := rfl

/-- Case analysis of `pickColorAtPoint` on a present image: either one of
the guards fires and the store is untouched, or the pre-pick palette is
snapshotted and the sampled color appended. -/
theorem pickColorAtPoint_cases (image : Image) (v : Viewport) (cx cy : ℚ) (st : Store) :
    pickColorAtPoint (some image) v cx cy st = st ∨
      pickColorAtPoint (some image) v cx cy st =
        { colors := st.colors ++
            [rgbToHex (sampleArea image ⌊(canvasToImageCoords v cx cy).1⌋
                ⌊(canvasToImageCoords v cx cy).2⌋).r
              (sampleArea image ⌊(canvasToImageCoords v cx cy).1⌋
                ⌊(canvasToImageCoords v cx cy).2⌋).g
              (sampleArea image ⌊(canvasToImageCoords v cx cy).1⌋
                ⌊(canvasToImageCoords v cx cy).2⌋).b],
          undoStack := pushSnap st.undoStack st.colors } := by
  rw [pickColorAtPoint_eq]
  split_ifs with h1 h2
  · exact Or.inl rfl
  · exact Or.inl rfl
  · exact Or.inr rfl

/-- C2: each of the five mutating palette operations (`pick`, `prefillBasic`,
`prefillAdvanced`, `remove`, `clear`), whenever it changes the palette,
first pushes the pre-mutation palette onto the history stack (`pushSnap`);
the stack never exceeds `MAX_UNDO_STACK = 10` entries; at capacity the
bottom (oldest) entry is evicted; 11 consecutive snapshot pushes starting
from an empty stack leave exactly 10 entries; `undo` is a no-op on an empty
stack; and from a full stack 10 `undo` calls empty it, making the 11th a
no-op. -/
theorem history_discipline :
    (∀ (op : Op) (st : Store), op.isMutating = true →
        (applyOp op st).colors ≠ st.colors →
        (applyOp op st).undoStack = pushSnap st.undoStack st.colors)
    ∧ (∀ (op : Op) (st : Store), st.undoStack.length ≤ MAX_UNDO_STACK →
        (applyOp op st).undoStack.length ≤ MAX_UNDO_STACK)
    ∧ (∀ (stack : List (List String)) (snap : List String),
        stack.length = MAX_UNDO_STACK → pushSnap stack snap = stack.tail ++ [snap])
    ∧ (∀ snaps : List (List String), snaps.length = 11 →
        (snaps.foldl pushSnap []).length = MAX_UNDO_STACK)
    ∧ (∀ st : Store, st.undoStack = [] → undo st = st)
    ∧ (∀ st : Store, st.undoStack.length = MAX_UNDO_STACK →
        (undo^[10] st).undoStack = [] ∧ undo^[11] st = undo^[10] st) := by
  have hM : MAX_UNDO_STACK = 10 := rfl
  have hfold : ∀ (snaps : List (List String)) (acc : List (List String)),
      acc.length ≤ MAX_UNDO_STACK →
      (snaps.foldl pushSnap acc).length = min (acc.length + snaps.length) MAX_UNDO_STACK := by
    intro snaps
    induction snaps with
    | nil =>
      intro acc h
      simp only [List.foldl_nil, List.length_nil, Nat.add_zero]
      omega
    | cons s rest ih =>
      intro acc h
      rw [List.foldl_cons]
      have hlen := pushSnap_length_of_le s h
      rw [ih (pushSnap acc s) (by omega), hlen]
      simp only [List.length_cons]
      omega
  refine ⟨?_, ?_, pushSnap_evicts_oldest, ?_, fun st h => undo_of_empty h, ?_⟩
  · intro op st hm hc
    cases op with
    | pick img v cx cy =>
      cases img with
      | none => exact absurd rfl hc
      | some image =>
        rcases pickColorAtPoint_cases image v cx cy st with h | h
        · rw [show applyOp (.pick (some image) v cx cy) st =
              pickColorAtPoint (some image) v cx cy st from rfl, h] at hc
          exact absurd rfl hc
        · show (pickColorAtPoint (some image) v cx cy st).undoStack = _
          rw [h]
    | prefillBasic palette => rfl
    | prefillAdvanced mainPalette => rfl
    | remove hex =>
      by_cases hcon : hex ∈ st.colors
      · show (removeColor hex st).undoStack = _
        simp [removeColor, hcon, saveState]
      · have : removeColor hex st = st := by simp [removeColor, hcon]
        rw [show applyOp (.remove hex) st = removeColor hex st from rfl, this] at hc
        exact absurd rfl hc
    | clear =>
      by_cases hz : st.colors.length = 0
      · have : clearAll st = st := by simp [clearAll, hz]
        rw [show applyOp .clear st = clearAll st from rfl, this] at hc
        exact absurd rfl hc
      · show (clearAll st).undoStack = _
        simp [clearAll, hz]
    | undoOp => simp [Op.isMutating] at hm
  · intro op st h
    cases op with
    | pick img v cx cy =>
      cases img with
      | none => exact h
      | some image =>
        rcases pickColorAtPoint_cases image v cx cy st with heq | heq <;>
          rw [show applyOp (.pick (some image) v cx cy) st =
              pickColorAtPoint (some image) v cx cy st from rfl, heq]
        · exact h
        · have := pushSnap_length_of_le st.colors h
          show (pushSnap st.undoStack st.colors).length ≤ MAX_UNDO_STACK
          omega
    | prefillBasic palette =>
      have := pushSnap_length_of_le st.colors h
      show (pushSnap st.undoStack st.colors).length ≤ MAX_UNDO_STACK
      omega
    | prefillAdvanced mainPalette =>
      have := pushSnap_length_of_le st.colors h
      show (pushSnap st.undoStack st.colors).length ≤ MAX_UNDO_STACK
      omega
    | remove hex =>
      by_cases hcon : hex ∈ st.colors
      · have hlen := pushSnap_length_of_le st.colors h
        have heq : (removeColor hex st).undoStack = pushSnap st.undoStack st.colors := by
          simp [removeColor, hcon, saveState]
        show (removeColor hex st).undoStack.length ≤ MAX_UNDO_STACK
        rw [heq]
        omega
      · have heq : removeColor hex st = st := by simp [removeColor, hcon]
        show (removeColor hex st).undoStack.length ≤ MAX_UNDO_STACK
        rw [heq]
        exact h
    | clear =>
      by_cases hz : st.colors.length = 0
      · have heq : clearAll st = st := by simp [clearAll, hz]
        show (clearAll st).undoStack.length ≤ MAX_UNDO_STACK
        rw [heq]
        exact h
      · have hlen := pushSnap_length_of_le st.colors h
        have heq : (clearAll st).undoStack = pushSnap st.undoStack st.colors := by
          simp [clearAll, hz]
        show (clearAll st).undoStack.length ≤ MAX_UNDO_STACK
        rw [heq]
        omega
    | undoOp =>
      by_cases hz : st.undoStack = []
      · show (undo st).undoStack.length ≤ MAX_UNDO_STACK
        rw [undo_of_empty hz]
        exact h
      · show (undo st).undoStack.length ≤ MAX_UNDO_STACK
        rw [undo_stack_dropLast hz, List.length_dropLast]
        omega
  · intro snaps hlen
    rw [hfold snaps [] (by simp)]
    simp only [List.length_nil, Nat.zero_add, hlen]
    omega
  · intro st h
    have h10 : (undo^[10] st).undoStack.length = 0 := by
      rw [undo_iterate_length 10 st (by omega)]
      omega
    have hnil : (undo^[10] st).undoStack = [] := List.eq_nil_of_length_eq_zero h10
    refine ⟨hnil, ?_⟩
    rw [show (11 : Nat) = 10 + 1 from rfl, Function.iterate_succ_apply' undo 10 st]
    exact undo_of_empty hnil

/-- Witness for C2: `clear` on a one-color palette with empty history pushes
that palette as a snapshot. -/
theorem history_discipline_witness :
    (applyOp .clear ⟨["#aabbcc"], []⟩).undoStack = pushSnap [] ["#aabbcc"] :=
  history_discipline.1 .clear ⟨["#aabbcc"], []⟩ rfl (by decide)

/-! ## Pick guards (C3) -/

/-- C3: `pickColorAtPoint` is a no-op (the whole store, palette included, is
returned unchanged) whenever the mapped image-space point lies outside the
image bounds, and likewise whenever the palette already holds
`MAX_COLORS = 21` colors, regardless of the point; both guards return
silently rather than raising an error. -/
theorem pick_noop (image : Image) (v : Viewport) (cx cy : ℚ) (st : Store) :
    (((canvasToImageCoords v cx cy).1 < 0 ∨ (canvasToImageCoords v cx cy).2 < 0 ∨
        (image.width : ℚ) ≤ (canvasToImageCoords v cx cy).1 ∨
        (image.height : ℚ) ≤ (canvasToImageCoords v cx cy).2) →
      pickColorAtPoint (some image) v cx cy st = st)
    ∧ (st.colors.length = MAX_COLORS →
      ∀ img : Option Image, pickColorAtPoint img v cx cy st = st) := by
  constructor
  · intro hout
    rw [pickColorAtPoint_eq]
    by_cases h1 : MAX_COLORS ≤ st.colors.length
    · rw [if_pos h1]
    · rw [if_neg h1, if_pos hout]
  · intro hfull img
    cases img with
    | none => rfl
    | some image2 =>
      rw [pickColorAtPoint_eq, if_pos (le_of_eq hfull.symm)]

/-- Witness for C3: a click mapping to image x-coordinate −5 on a 4×4 image
leaves the empty store untouched. -/
theorem pick_noop_witness :
    pickColorAtPoint (some ⟨4, 4, fun _ _ => ⟨0, 0, 0⟩⟩) ⟨1, 0, 0⟩ (-5) 2 ⟨[], []⟩ = ⟨[], []⟩ :=
  (pick_noop ⟨4, 4, fun _ _ => ⟨0, 0, 0⟩⟩ ⟨1, 0, 0⟩ (-5) 2 ⟨[], []⟩).1
    (Or.inl (by norm_num [canvasToImageCoords]))

/-! ## Sampling divisor (C10) -/

/-- C10: `sampleArea` divides by `sampleCount`, the number of in-bounds
neighborhood pixels.  (1) Whenever the floored center `(x, y)` lies within
the image bounds, the center itself is counted, so the divisor is positive
(no `NaN`).  (2) `pickColorAtPoint`'s bounds guard establishes exactly that
precondition for the floored point it passes to `sampleArea`.  (3) Without
that guard the divisor can be zero: a center entirely outside the image has
an empty in-bounds neighborhood. -/
theorem sampleArea_positive_count :
    (∀ (img : Image) (x y : Int),
        0 ≤ x → x < (img.width : Int) → 0 ≤ y → y < (img.height : Int) →
        0 < sampleCount img x y)
    ∧ (∀ (img : Image) (v : Viewport) (cx cy : ℚ),
        ¬((canvasToImageCoords v cx cy).1 < 0 ∨ (canvasToImageCoords v cx cy).2 < 0 ∨
            (img.width : ℚ) ≤ (canvasToImageCoords v cx cy).1 ∨
            (img.height : ℚ) ≤ (canvasToImageCoords v cx cy).2) →
        0 ≤ ⌊(canvasToImageCoords v cx cy).1⌋ ∧
          ⌊(canvasToImageCoords v cx cy).1⌋ < (img.width : Int) ∧
          0 ≤ ⌊(canvasToImageCoords v cx cy).2⌋ ∧
          ⌊(canvasToImageCoords v cx cy).2⌋ < (img.height : Int))
    ∧ (∃ (img : Image) (x y : Int), sampleCount img x y = 0) := by
  refine ⟨?_, ?_, ?_⟩
  · intro img x y hx hxw hy hyh
    have hmem : ((0 : Int), (0 : Int)) ∈ inBoundsOffsets img x y := by
      simp [inBoundsOffsets, sampleOffsets, List.mem_filter, inBoundsZ, hx, hxw, hy, hyh]
    show 0 < (inBoundsOffsets img x y).length
    exact List.length_pos.mpr (List.ne_nil_of_mem hmem)
  · intro img v cx cy h
    push_neg at h
    obtain ⟨h1, h2, h3, h4⟩ := h
    refine ⟨Int.floor_nonneg.mpr h1, ?_, Int.floor_nonneg.mpr h2, ?_⟩
    · exact Int.floor_lt.mpr (by exact_mod_cast h3)
    · exact Int.floor_lt.mpr (by exact_mod_cast h4)
  · exact ⟨⟨1, 1, fun _ _ => ⟨0, 0, 0⟩⟩, 3, 3, by decide⟩

/-- Witness for C10 at a 4×4 image and in-bounds center `(2, 1)`. -/
theorem sampleArea_positive_count_witness :
    0 < sampleCount ⟨4, 4, fun _ _ => ⟨0, 0, 0⟩⟩ 2 1 :=
  sampleArea_positive_count.1 ⟨4, 4, fun _ _ => ⟨0, 0, 0⟩⟩ 2 1
    (by decide) (by decide) (by decide) (by decide)

/-! ## Color variations (C6) and advanced prefill (C5) -/

/-- For `count ≤ 4` the variation list has exactly `count` entries. -/
theorem createColorVariations_length (r g b count : Nat) (h : count ≤ 4) :
    (createColorVariations r g b count).length = count := by
  unfold createColorVariations
  by_cases h4 : 4 ≤ count
  · simp [h4, List.length_take]
    omega
  · simp [h4, List.length_take]
    omega

/-- C6: for every base color and `count ∈ {3, 4}`, `createColorVariations`
returns the spec's fixed sequence — lighter (+15 lightness, clamped at
100), darker (−15, clamped at 0), desaturated (−30 saturation, clamped at
0), and, reached only when `count = 4`, more-saturated (+20, clamped at
100) — truncated to `count` entries.  Determinism is automatic: the
embedding is a pure function, so the same input always yields the same
output sequence. -/
theorem createColorVariations_spec (r g b count : Nat) (h : count = 3 ∨ count = 4) :
    createColorVariations r g b count = deriveVariationsSpec r g b count ∧
      (createColorVariations r g b count).length = count := by
  refine ⟨?_, createColorVariations_length r g b count (by omega)⟩
  rcases h with rfl | rfl
  · rfl
  · rfl

/-- Witness for C6 at base color `(10, 20, 30)` and `count = 3`. -/
theorem createColorVariations_spec_witness :
    createColorVariations 10 20 30 3 = deriveVariationsSpec 10 20 30 3 :=
  (createColorVariations_spec 10 20 30 3 (Or.inl rfl)).1

/-- C5: on an extraction of exactly 5 main colors, the advanced prefill
replaces the palette with the rank-0 main color followed by its 4
variations, then each remaining main color followed by its 3 variations,
in that order — 21 colors in total. -/
theorem prefillAdvanced_layout (c0 c1 c2 c3 c4 : Rgb) (st : Store) :
    (prefillAdvancedPaletteFromImage [c0, c1, c2, c3, c4] st).colors =
        (rgbToHex c0.r c0.g c0.b :: createColorVariations c0.r c0.g c0.b 4)
        ++ ((rgbToHex c1.r c1.g c1.b :: createColorVariations c1.r c1.g c1.b 3)
        ++ ((rgbToHex c2.r c2.g c2.b :: createColorVariations c2.r c2.g c2.b 3)
        ++ ((rgbToHex c3.r c3.g c3.b :: createColorVariations c3.r c3.g c3.b 3)
        ++ (rgbToHex c4.r c4.g c4.b :: createColorVariations c4.r c4.g c4.b 3))))
      ∧ (prefillAdvancedPaletteFromImage [c0, c1, c2, c3, c4] st).colors.length = 21 := by
  have henum : ([c0, c1, c2, c3, c4] : List Rgb).enum =
      [(0, c0), (1, c1), (2, c2), (3, c3), (4, c4)] := rfl
  have hcolors : (prefillAdvancedPaletteFromImage [c0, c1, c2, c3, c4] st).colors =
      (rgbToHex c0.r c0.g c0.b :: createColorVariations c0.r c0.g c0.b 4)
      ++ ((rgbToHex c1.r c1.g c1.b :: createColorVariations c1.r c1.g c1.b 3)
      ++ ((rgbToHex c2.r c2.g c2.b :: createColorVariations c2.r c2.g c2.b 3)
      ++ ((rgbToHex c3.r c3.g c3.b :: createColorVariations c3.r c3.g c3.b 3)
      ++ (rgbToHex c4.r c4.g c4.b :: createColorVariations c4.r c4.g c4.b 3)))) := by
    show advancedColors [c0, c1, c2, c3, c4] = _
    simp [advancedColors, henum]
  refine ⟨hcolors, ?_⟩
  rw [hcolors]
  have l0 := createColorVariations_length c0.r c0.g c0.b 4 (by omega)
  have l1 := createColorVariations_length c1.r c1.g c1.b 3 (by omega)
  have l2 := createColorVariations_length c2.r c2.g c2.b 3 (by omega)
  have l3 := createColorVariations_length c3.r c3.g c3.b 3 (by omega)
  have l4 := createColorVariations_length c4.r c4.g c4.b 3 (by omega)
  simp [List.length_append, l0, l1, l2, l3, l4]

/-! ## Crop selection too small (C7) -/

/-- C7: when the normalized, image-space-converted, clamped crop rectangle
has width or height below `MIN_CROP_SIZE = 10`, completing the crop returns
the selection-too-small outcome and performs no extraction: the whole store
(palette and history stack) is returned unchanged, for either prefill mode
and any extractor. -/
theorem executeCropPrefill_tooSmall (extractBasic extractAdvanced : Image → List Rgb)
    (mode : CropMode) (image : Image) (c : CropState) (v : Viewport) (st : Store)
    (h : (cropRectImage image v c).x2 - (cropRectImage image v c).x1 < MIN_CROP_SIZE ∨
        (cropRectImage image v c).y2 - (cropRectImage image v c).y1 < MIN_CROP_SIZE) :
    executeCropPrefill extractBasic extractAdvanced mode (some image) (some c) v st =
      (st, CropOutcome.selectionTooSmall) := by
  show (if (cropRectImage image v c).x2 - (cropRectImage image v c).x1 < MIN_CROP_SIZE ∨
        (cropRectImage image v c).y2 - (cropRectImage image v c).y1 < MIN_CROP_SIZE then
        (st, CropOutcome.selectionTooSmall)
      else _) = _
  rw [if_pos h]

/-- Witness for C7: a 5-pixel-wide crop rectangle on a 100×100 image at
zoom 1 is rejected and the store is untouched. -/
theorem executeCropPrefill_tooSmall_witness :
    executeCropPrefill (fun _ => []) (fun _ => []) CropMode.basic
      (some ⟨100, 100, fun _ _ => ⟨0, 0, 0⟩⟩) (some ⟨0, 0, 5, 50⟩) ⟨1, 0, 0⟩ ⟨[], []⟩ =
      (⟨[], []⟩, CropOutcome.selectionTooSmall) :=
  executeCropPrefill_tooSmall (fun _ => []) (fun _ => []) CropMode.basic
    ⟨100, 100, fun _ _ => ⟨0, 0, 0⟩⟩ ⟨0, 0, 5, 50⟩ ⟨1, 0, 0⟩ ⟨[], []⟩
    (Or.inl (by norm_num [cropRectImage, canvasToImageCoords, MIN_CROP_SIZE]))

/-! ## Hue-sorted display order (C1) -/

/-- C1: for every palette of well-formed colors, `sortByHue` returns a
permutation of the palette (no element added or dropped) that is sorted by
non-decreasing hue, and colors of equal hue keep their manual-order
relative positions (the sublist at any fixed hue is unchanged).  The
manual-order list itself is not mutated: the source copies it with
`slice()`, and here `sortByHue l` is a fresh list while `l` is untouched by
construction. -/
theorem sortByHue_spec (l : List String) (hvalid : ∀ c ∈ l, (hexToRgb c).isSome) :
    (sortByHue l).Perm l
    ∧ (sortByHue l).Pairwise (fun a b => hueOf a ≤ hueOf b)
    ∧ (∀ q : ℚ, (sortByHue l).filter (fun c => decide (hueOf c = q)) =
        l.filter (fun c => decide (hueOf c = q))) := by
  have htrans : ∀ a b c : String,
      decide (hueOf a ≤ hueOf b) = true → decide (hueOf b ≤ hueOf c) = true →
      decide (hueOf a ≤ hueOf c) = true := by
    intro a b c hab hbc
    rw [decide_eq_true_eq] at hab hbc ⊢
    exact le_trans hab hbc
  have htotal : ∀ a b : String,
      (decide (hueOf a ≤ hueOf b) || decide (hueOf b ≤ hueOf a)) = true := by
    intro a b
    rcases le_total (hueOf a) (hueOf b) with hle | hle
    · rw [decide_eq_true hle, Bool.true_or]
    · rw [decide_eq_true hle, Bool.or_true]
  refine ⟨List.mergeSort_perm l _, ?_, ?_⟩
  · exact (List.sorted_mergeSort htrans htotal l).imp (by
      intro a b hab
      exact decide_eq_true_eq.mp hab)
  · intro q
    have hfil : (l.filter (fun c => decide (hueOf c = q))).Pairwise
        (fun a b => decide (hueOf a ≤ hueOf b) = true) := by
      apply List.pairwise_of_forall_mem_list
      intro a ha b hb
      have ha' := decide_eq_true_eq.mp (List.mem_filter.mp ha).2
      have hb' := decide_eq_true_eq.mp (List.mem_filter.mp hb).2
      rw [decide_eq_true_eq, ha', hb']
    have hsub : (l.filter (fun c => decide (hueOf c = q))).Sublist (sortByHue l) :=
      List.sublist_mergeSort htrans htotal hfil (List.filter_sublist l)
    have hidem : List.filter (fun c => decide (hueOf c = q))
        (List.filter (fun c => decide (hueOf c = q)) l) =
        List.filter (fun c => decide (hueOf c = q)) l :=
      List.filter_eq_self.mpr (fun a ha => (List.mem_filter.mp ha).2)
    have hsub2 := hsub.filter (fun c => decide (hueOf c = q))
    rw [hidem] at hsub2
    have hlen : (List.filter (fun c => decide (hueOf c = q)) l).length =
        (List.filter (fun c => decide (hueOf c = q)) (sortByHue l)).length := by
      rw [← List.countP_eq_length_filter, ← List.countP_eq_length_filter]
      exact ((List.mergeSort_perm l _).countP_eq _).symm
    exact (hsub2.eq_of_length hlen).symm

/-- Witness for C1 on the palette `[#0000ff, #ff0000]` (hues 240 and 0). -/
theorem sortByHue_spec_witness :
    (sortByHue ["#0000ff", "#ff0000"]).Perm ["#0000ff", "#ff0000"] :=
  (sortByHue_spec ["#0000ff", "#ff0000"] (by decide)).1

end PalettePicker
